import Mathlib

/-!
Verification development for the startmon process/thread start monitor
(src/main.c). The definitions below are a shallow embedding of the core
pipeline of that program: the netlink frame iterator of the receive loop in
main, the connector-message classifier dispatch_nl, the process-event
decoder and dispatcher dispatch_nl_cn, and the command-line resolver
get_cmdline. Memory is modelled as byte maps (Nat to Nat, each value a byte
below 256); multi-byte integers are read little-endian as on the x86 hosts
the program targets, and the plain C char type is modelled as signed, as it
is on those hosts.
-/

namespace Startmon

/-! ## Wire-level readers -/

/-- Read one byte of a buffer. Buffers are modelled as functions from byte
offset to byte value; the mask keeps every read inside one byte. -/
def readU8 (buf : Nat → Nat) (off : Nat) : Nat := buf off % 256

/-- Read a little-endian 16-bit unsigned integer at a byte offset. -/
def readU16 (buf : Nat → Nat) (off : Nat) : Nat :=
  readU8 buf off + 256 * readU8 buf (off + 1)

/-- Read a little-endian 32-bit unsigned integer at a byte offset. -/
def readU32 (buf : Nat → Nat) (off : Nat) : Nat :=
  readU8 buf off + 256 * readU8 buf (off + 1) +
    65536 * readU8 buf (off + 2) + 16777216 * readU8 buf (off + 3)

/-! ## Protocol constants, from linux/netlink.h, linux/connector.h and
linux/cn_proc.h as included by main.c -/

/-- Value of NLMSG_NOOP in linux/netlink.h. -/
def NLMSG_NOOP : Nat := 1

/-- Value of NLMSG_ERROR in linux/netlink.h. -/
def NLMSG_ERROR : Nat := 2

/-- Value of NLMSG_OVERRUN in linux/netlink.h. -/
def NLMSG_OVERRUN : Nat := 4

/-- Value of CN_IDX_PROC in linux/connector.h. -/
def CN_IDX_PROC : Nat := 1

/-- Value of CN_VAL_PROC in linux/connector.h. -/
def CN_VAL_PROC : Nat := 1

/-- Value of PROC_EVENT_FORK in linux/cn_proc.h. -/
def PROC_EVENT_FORK : Nat := 1

/-- Value of PROC_EVENT_EXEC in linux/cn_proc.h. -/
def PROC_EVENT_EXEC : Nat := 2

/-! ## Data model -/

/-- The three filter flags of main.c (execflag, forkflag, threadflag),
set by the excluded command-line layer. -/
structure FilterConfig where
  execflag : Bool
  forkflag : Bool
  threadflag : Bool
  deriving DecidableEq

/-- One struct cn_msg as handed to dispatch_nl_cn: the cb_id pair (idx at
byte offset 0, val at offset 4 of the connector header), the declared
payload length (u16 at offset 16), and the payload bytes (offset 20
onward), addressed relative to the start of the payload. The seq, ack and
flags fields of the C struct are never read by main.c and are omitted. -/
structure CnMsg where
  idx : Nat
  val : Nat
  len : Nat
  data : Nat → Nat

/-- One output line of the program. Constructors mirror the printf calls of
main.c: overrun, then the four record formats
Fork p c cmd, Thread tg c cmd, Exec - p cmd, Exec tg p cmd. -/
inductive Line
  | overrun
  | forkLine (parent_pid child_pid : Nat) (cmdline : List Nat)
  | threadLine (child_tgid child_pid : Nat) (cmdline : List Nat)
  | execLeaderLine (pid : Nat) (cmdline : List Nat)
  | execThreadLine (tgid pid : Nat) (cmdline : List Nat)
  deriving DecidableEq

/-! ## Process-event decoding and dispatch (dispatch_nl_cn)

Field offsets within the proc_event payload, from the struct proc_event
layout of linux/cn_proc.h on the target hosts: the what discriminant is the
u32 at offset 0, the event_data union starts at offset 16 (after cpu and
the 8-aligned timestamp), so fork.parent_pid is at 16, fork.parent_tgid at
20, fork.child_pid at 24, fork.child_tgid at 28, exec.process_pid at 16 and
exec.process_tgid at 20. Process identifiers are compared and printed as
their 32-bit values. -/

/-- Body of dispatch_nl_cn after its channel-identifier guard: the switch
on pe.what followed by the flag tests and printf calls of main.c lines
85 to 121. The resolve argument stands for get_cmdline applied to the
identifier the code passes to it. -/
def proc_event_dispatch (fc : FilterConfig) (resolve : Nat → List Nat)
    (data : Nat → Nat) : List Line :=
  if readU32 data 0 = PROC_EVENT_FORK then
    if fc.forkflag then
      if readU32 data 24 = readU32 data 28 then
        [Line.forkLine (readU32 data 16) (readU32 data 24)
          (resolve (readU32 data 28))]
      else if fc.threadflag then
        [Line.threadLine (readU32 data 28) (readU32 data 24)
          (resolve (readU32 data 28))]
      else []
    else []
  else if readU32 data 0 = PROC_EVENT_EXEC then
    if fc.execflag then
      if readU32 data 16 = readU32 data 20 then
        [Line.execLeaderLine (readU32 data 16) (resolve (readU32 data 20))]
      else if fc.threadflag then
        [Line.execThreadLine (readU32 data 20) (readU32 data 16)
          (resolve (readU32 data 20))]
      else []
    else []
  else []

/-- dispatch_nl_cn of main.c: return early unless the connector channel
identifier pair is (CN_IDX_PROC, CN_VAL_PROC), then evaluate the enclosed
process event. The declared payload length msg.len is never consulted by
the C code. -/
def dispatch_nl_cn (fc : FilterConfig) (resolve : Nat → List Nat)
    (msg : CnMsg) : List Line :=
  if msg.idx = CN_IDX_PROC ∧ msg.val = CN_VAL_PROC then
    proc_event_dispatch fc resolve msg.data
  else []

/-- dispatch_nl of main.c: the switch on nlmsg_type. Error and no-op frames
return with no output, an overrun frame prints the overrun line, every
other type is handed to dispatch_nl_cn with the frame payload. -/
def dispatch_nl (fc : FilterConfig) (resolve : Nat → List Nat)
    (nlmsg_type : Nat) (msg : CnMsg) : List Line :=
  if nlmsg_type = NLMSG_ERROR ∨ nlmsg_type = NLMSG_NOOP then []
  else if nlmsg_type = NLMSG_OVERRUN then [Line.overrun]
  else dispatch_nl_cn fc resolve msg

/-! ## Frame iteration (the NLMSG_OK / NLMSG_NEXT loop of main) -/

/-- Declared total length of the netlink frame at a buffer offset: the u32
nlmsg_len field at offset 0 of struct nlmsghdr. -/
def nlmsgLenAt (buf : Nat → Nat) (off : Nat) : Nat := readU32 buf off

/-- Type of the netlink frame at a buffer offset: the u16 nlmsg_type field
at offset 4 of struct nlmsghdr. -/
def nlmsgTypeAt (buf : Nat → Nat) (off : Nat) : Nat := readU16 buf (off + 4)

/-- NLMSG_ALIGN of linux/netlink.h: round up to a multiple of 4. -/
def NLMSG_ALIGN (n : Nat) : Nat := (n + 3) / 4 * 4

/-- NLMSG_OK of linux/netlink.h applied to the frame at a buffer offset
with a remaining byte count: at least sizeof(struct nlmsghdr) = 16 bytes
remain, the declared frame length is at least 16, and the declared frame
length fits in the remaining bytes. The remaining count is an integer
because the C loop keeps it in a signed ssize_t. -/
def nlmsgOk (buf : Nat → Nat) (off : Nat) (len : Int) : Prop :=
  16 ≤ len ∧ 16 ≤ nlmsgLenAt buf off ∧ (nlmsgLenAt buf off : Int) ≤ len

instance nlmsgOkDec (buf : Nat → Nat) (off : Nat) (len : Int) :
    Decidable (nlmsgOk buf off len) :=
  inferInstanceAs (Decidable
    (16 ≤ len ∧ 16 ≤ nlmsgLenAt buf off ∧ (nlmsgLenAt buf off : Int) ≤ len))

/-- Fuelled form of the frame iteration: the for loop of main lines 228 to
229, collecting the byte offsets of the frames that pass NLMSG_OK, each
step advancing by NLMSG_ALIGN(nlmsg_len) as NLMSG_NEXT does. One unit of
fuel is spent per frame; since every accepted frame consumes at least 16
bytes of the remaining count, any fuel above the remaining count is
enough. -/
def framesFromAux (buf : Nat → Nat) : Nat → Nat → Int → List Nat
  | 0, _, _ => []
  | fuel + 1, off, len =>
    if nlmsgOk buf off len then
      off :: framesFromAux buf fuel (off + NLMSG_ALIGN (nlmsgLenAt buf off))
        (len - (NLMSG_ALIGN (nlmsgLenAt buf off) : Int))
    else []

/-- Offsets of the frames the receive loop visits in a datagram of len
received bytes, starting at a given offset. -/
def framesFrom (buf : Nat → Nat) (off : Nat) (len : Int) : List Nat :=
  framesFromAux buf (len.toNat + 1) off len

/-- The struct cn_msg embedded in the frame at a buffer offset, as read by
dispatch_nl_cn through the NLMSG_DATA pointer: the connector header starts
16 bytes into the frame, so idx is the u32 at frame offset 16, val at 20,
the declared payload length the u16 at 32, and the payload bytes start at
frame offset 36. -/
def cnMsgAt (buf : Nat → Nat) (off : Nat) : CnMsg :=
  { idx := readU32 buf (off + 16)
    val := readU32 buf (off + 20)
    len := readU16 buf (off + 32)
    data := fun i => buf (off + 36 + i) }

/-- Output of one datagram traversal: dispatch_nl applied to every frame
the iteration visits, in order. -/
def processFrames (fc : FilterConfig) (resolve : Nat → List Nat)
    (buf : Nat → Nat) (off : Nat) (len : Int) : List Line :=
  (framesFrom buf off len).flatMap
    (fun o => dispatch_nl fc resolve (nlmsgTypeAt buf o) (cnMsgAt buf o))

/-- One iteration of the receive loop of main lines 222 to 231: the frames
of the received datagram are walked only when the netlink sender address
carries pid zero (the kernel); otherwise the datagram produces nothing. -/
def recv_step (fc : FilterConfig) (resolve : Nat → List Nat)
    (senderPid : Nat) (buf : Nat → Nat) (bcount : Int) : List Line :=
  if senderPid = 0 then processFrames fc resolve buf 0 bcount else []

/-! ## Command-line resolution (get_cmdline) -/

/-- Value of the plain C char holding a byte, on the targeted hosts where
char is signed: bytes 128 to 255 read back as negative values. -/
def signedChar (b : Nat) : Int :=
  if b < 128 then (b : Int) else (b : Int) - 256

/-- One byte through the sanitizing loop of get_cmdline: the C test
is on the signed char value, so the byte is replaced by a space exactly
when that signed value is below 32. -/
def sanitizeByte (b : Nat) : Nat :=
  if signedChar b < 32 then 32 else b

/-- Read the byte at an index of a list-modelled buffer (zero past the
end). -/
def listByte (l : List Nat) (n : Nat) : Nat :=
  match l, n with
  | [], _ => 0
  | b :: _, 0 => b
  | _ :: t, n + 1 => listByte t n

/-- The sanitizing loop of get_cmdline lines 69 to 71: starting from cursor
c with remain bytes to go, rewrite each byte in place through sanitizeByte
and advance; returns the final buffer and the final cursor, which is where
the terminating zero is then stored. -/
def sanLoop : List Nat → Nat → Nat → List Nat × Nat
  | buf, c, 0 => (buf, c)
  | buf, c, r + 1 =>
    sanLoop (buf.set c (sanitizeByte (listByte buf c))) (c + 1) r

/-- Outcome of the /proc/(id)/cmdline access made by get_cmdline: the open
call fails, or open succeeds and the read call fails, or the read succeeds
returning the file bytes. -/
inductive CmdlineSrc
  | openFail
  | readFail
  | content (bs : List Nat)
  deriving DecidableEq

/-- Bytes of the placeholder written by sprintf(cmdlinebuf, ...), the
string between angle brackets N slash A. -/
def NA : List Nat := [60, 78, 47, 65, 62]

/-- get_cmdline of main.c as a function of the cmdline access outcome. On
open failure the placeholder is produced. On read failure bytes is -1, the
loop body never runs, and the terminating zero lands at index 0, so the
returned C string is empty. On a successful read of the file bytes (the
read call caps them at 4096) the loop sanitizes them in place; no sanitized
byte is zero, so the returned C string is exactly the sanitized bytes. -/
def get_cmdline : CmdlineSrc → List Nat
  | CmdlineSrc.openFail => NA
  | CmdlineSrc.readFail => []
  | CmdlineSrc.content bs =>
    (sanLoop (bs.take 4096) 0 (bs.take 4096).length).1

/-- A command-line resolver built from an environment describing, for each
process identifier, how its cmdline access turns out. -/
def resolveOf (env : Nat → CmdlineSrc) (pid : Nat) : List Nat :=
  get_cmdline (env pid)

/-- Size of the global cmdlinebuf array of main.c line 56. -/
def cmdlinebufSize : Nat := 4096

/-- Index of cmdlinebuf at which get_cmdline stores the terminating zero
after a successful read of the given file bytes: the final cursor of the
sanitizing loop. -/
def terminatorIndex (bs : List Nat) : Nat :=
  (sanLoop (bs.take 4096) 0 (bs.take 4096).length).2

/-! ## Concrete inputs used by witnesses and counterexamples -/

/-- Filter configuration with all three flags set. -/
def fcAll : FilterConfig := ⟨true, true, true⟩

/-- Resolver returning the empty command line for every identifier. -/
def resolveNil : Nat → List Nat := fun _ => []

/-- Payload bytes of a fork proc_event with parent_pid 10, parent_tgid 11,
child_pid 20, child_tgid 20 (an ordinary fork). -/
def forkDataEx : Nat → Nat := fun i =>
  listByte [1, 0, 0, 0, 0, 0, 0, 0, 0, 0, 0, 0, 0, 0, 0, 0,
            10, 0, 0, 0, 11, 0, 0, 0, 20, 0, 0, 0, 20, 0, 0, 0] i

/-- Payload bytes of an exec proc_event with process_pid 7 and
process_tgid 9 (an exec by a subordinate thread). -/
def execDataEx : Nat → Nat := fun i =>
  listByte [2, 0, 0, 0, 0, 0, 0, 0, 0, 0, 0, 0, 0, 0, 0, 0,
            7, 0, 0, 0, 9, 0, 0, 0] i

/-- Connector message on the process-event channel declaring payload length
zero over an all-zero payload. -/
def cnLenZeroA : CnMsg := { idx := 1, val := 1, len := 0, data := fun _ => 0 }

/-- Connector message on the process-event channel declaring payload length
zero over the fork payload forkDataEx. -/
def cnLenZeroB : CnMsg := { idx := 1, val := 1, len := 0, data := forkDataEx }

/-- Connector message identical to cnLenZeroB except that it declares
payload length 32. -/
def cnLen32B : CnMsg := { idx := 1, val := 1, len := 32, data := forkDataEx }

/-- A 20-byte datagram holding exactly one valid frame: nlmsg_len 20,
nlmsg_type 4 (overrun). -/
def buf20ex : Nat → Nat := fun i =>
  listByte [20, 0, 0, 0, 4, 0, 0, 0, 0, 0, 0, 0, 0, 0, 0, 0, 0, 0, 0, 0] i

/-! ## Helper lemmas -/

/-- A declared frame length never shrinks under NLMSG_ALIGN. -/
theorem le_align (n : Nat) : n ≤ NLMSG_ALIGN n := by
  unfold NLMSG_ALIGN; omega

/-- The fuelled frame iteration does not depend on the fuel once the fuel
exceeds the remaining byte count. -/
theorem framesFromAux_congr (buf : Nat → Nat) :
    ∀ (f₁ f₂ off : Nat) (len : Int), len.toNat < f₁ → len.toNat < f₂ →
      framesFromAux buf f₁ off len = framesFromAux buf f₂ off len := by
  intro f₁
  induction f₁ with
  | zero =>
    intro f₂ off len h1 _
    exact absurd h1 (Nat.not_lt_zero _)
  | succ n ih =>
    intro f₂ off len h1 h2
    cases f₂ with
    | zero => exact absurd h2 (Nat.not_lt_zero _)
    | succ m =>
      simp only [framesFromAux]
      by_cases h : nlmsgOk buf off len
      · rw [if_pos h, if_pos h]
        obtain ⟨hl, hn, hle⟩ := h
        have ha := le_align (nlmsgLenAt buf off)
        have := ih m (off + NLMSG_ALIGN (nlmsgLenAt buf off))
          (len - (NLMSG_ALIGN (nlmsgLenAt buf off) : Int))
          (by omega) (by omega)
        rw [this]
      · rw [if_neg h, if_neg h]

/-- One-step unfolding of the frame iteration: a frame passing NLMSG_OK is
visited and iteration resumes past its aligned length with the remaining
count reduced accordingly; a frame failing NLMSG_OK ends the iteration. -/
theorem framesFrom_unfold (buf : Nat → Nat) (off : Nat) (len : Int) :
    framesFrom buf off len =
      if nlmsgOk buf off len then
        off :: framesFrom buf (off + NLMSG_ALIGN (nlmsgLenAt buf off))
          (len - (NLMSG_ALIGN (nlmsgLenAt buf off) : Int))
      else [] := by
  have step : ∀ (f off : Nat) (len : Int),
      framesFromAux buf (f + 1) off len =
        if nlmsgOk buf off len then
          off :: framesFromAux buf f (off + NLMSG_ALIGN (nlmsgLenAt buf off))
            (len - (NLMSG_ALIGN (nlmsgLenAt buf off) : Int))
        else [] := fun _ _ _ => rfl
  by_cases h : nlmsgOk buf off len
  · rw [if_pos h]
    unfold framesFrom
    rw [step (len.toNat) off len, if_pos h]
    obtain ⟨hl, hn, hle⟩ := h
    have ha := le_align (nlmsgLenAt buf off)
    have := framesFromAux_congr buf len.toNat
      ((len - (NLMSG_ALIGN (nlmsgLenAt buf off) : Int)).toNat + 1)
      (off + NLMSG_ALIGN (nlmsgLenAt buf off))
      (len - (NLMSG_ALIGN (nlmsgLenAt buf off) : Int))
      (by omega) (by omega)
    rw [this]
  · rw [if_neg h]
    unfold framesFrom
    rw [step (len.toNat) off len, if_neg h]

/-- Every frame offset the fuelled iteration visits passed NLMSG_OK against
a remaining byte count no larger than the starting one. -/
theorem framesFromAux_mem (buf : Nat → Nat) :
    ∀ (fuel off : Nat) (len : Int) (o : Nat),
      o ∈ framesFromAux buf fuel off len →
      ∃ r : Int, r ≤ len ∧ nlmsgOk buf o r := by
  intro fuel
  induction fuel with
  | zero =>
    intro off len o ho
    simp [framesFromAux] at ho
  | succ n ih =>
    intro off len o ho
    by_cases h : nlmsgOk buf off len
    · rw [framesFromAux, if_pos h] at ho
      rcases List.mem_cons.mp ho with rfl | hmem
      · exact ⟨len, le_refl len, h⟩
      · obtain ⟨r, hr, hok⟩ :=
          ih (off + NLMSG_ALIGN (nlmsgLenAt buf off))
            (len - (NLMSG_ALIGN (nlmsgLenAt buf off) : Int)) o hmem
        exact ⟨r, by omega, hok⟩
    · rw [framesFromAux, if_neg h] at ho
      simp at ho

/-- Reading the byte list-buffer right after a prefix yields the first byte
past the prefix. -/
theorem listByte_append_len (pre : List Nat) (b : Nat) (post : List Nat) :
    listByte (pre ++ b :: post) pre.length = b := by
  induction pre with
  | nil => rfl
  | cons a t ih =>
    show listByte (t ++ b :: post) t.length = b
    exact ih

/-- Writing the byte right after a prefix replaces the first byte past the
prefix. -/
theorem set_append_len (pre : List Nat) (b v : Nat) (post : List Nat) :
    (pre ++ b :: post).set pre.length v = pre ++ v :: post := by
  induction pre with
  | nil => rfl
  | cons a t ih =>
    show a :: (t ++ b :: post).set t.length v = a :: (t ++ v :: post)
    rw [ih]

/-- The sanitizing loop maps sanitizeByte over the bytes after the cursor
and leaves the cursor one past the last byte processed. -/
theorem sanLoop_spec :
    ∀ (todo pre : List Nat),
      sanLoop (pre ++ todo) pre.length todo.length =
        (pre ++ todo.map sanitizeByte, pre.length + todo.length) := by
  intro todo
  induction todo with
  | nil => intro pre; simp [sanLoop]
  | cons b rest ih =>
    intro pre
    show sanLoop
        ((pre ++ b :: rest).set pre.length
          (sanitizeByte (listByte (pre ++ b :: rest) pre.length)))
        (pre.length + 1) rest.length = _
    rw [listByte_append_len, set_append_len]
    have h2 : pre.length + 1 = (pre ++ [sanitizeByte b]).length := by simp
    have h3 : pre ++ sanitizeByte b :: rest =
        (pre ++ [sanitizeByte b]) ++ rest := by simp
    rw [h3, h2, ih (pre ++ [sanitizeByte b])]
    refine Prod.ext ?_ ?_
    · simp
    · simp; omega

/-- The cursor of the sanitizing loop advances once per remaining byte. -/
theorem sanLoop_snd (r : Nat) :
    ∀ (buf : List Nat) (c : Nat), (sanLoop buf c r).2 = c + r := by
  induction r with
  | zero => intro buf c; rfl
  | succ n ih =>
    intro buf c
    show (sanLoop _ (c + 1) n).2 = c + (n + 1)
    rw [ih]
    omega

/-- Two payloads equal on their first 32 bytes yield equal 32-bit reads at
any offset whose last byte lies below 32. -/
theorem readU32_congr {d₁ d₂ : Nat → Nat}
    (h : ∀ i, i < 32 → d₁ i = d₂ i) (off : Nat) (hoff : off + 3 < 32) :
    readU32 d₁ off = readU32 d₂ off := by
  unfold readU32 readU8
  rw [h off (by omega), h (off + 1) (by omega), h (off + 2) (by omega),
    h (off + 3) (by omega)]

/-! ## Claim theorems -/

/-- C1: for every decoded Fork event and filter configuration, an ordinary
fork (child_pid equal to child_tgid) is emitted exactly when the fork flag
is set, as a Fork record with primary parent_pid, secondary child_pid and
enrichment target child_tgid; a thread creation (child_pid different from
child_tgid) is emitted exactly when both the fork and thread flags are set,
as a Thread record with primary child_tgid, secondary child_pid and
enrichment target child_tgid. -/
theorem C1_fork_dispatch (fc : FilterConfig) (resolve : Nat → List Nat)
    (data : Nat → Nat) (hwhat : readU32 data 0 = PROC_EVENT_FORK) :
    proc_event_dispatch fc resolve data =
      if readU32 data 24 = readU32 data 28 then
        if fc.forkflag then
          [Line.forkLine (readU32 data 16) (readU32 data 24)
            (resolve (readU32 data 28))]
        else []
      else
        if fc.forkflag && fc.threadflag then
          [Line.threadLine (readU32 data 28) (readU32 data 24)
            (resolve (readU32 data 28))]
        else [] := by
  cases hf : fc.forkflag <;> cases ht : fc.threadflag <;>
    by_cases hc : readU32 data 24 = readU32 data 28 <;>
      simp [proc_event_dispatch, hwhat, hf, ht, hc,
        PROC_EVENT_FORK, PROC_EVENT_EXEC]

/-- C1 witness: an ordinary-fork payload with parent_pid 10 and child_pid =
child_tgid = 20 under all flags set yields exactly the Fork record with
primary 10, secondary 20 and the command line resolved for 20. -/
theorem C1_fork_dispatch_witness :
    readU32 forkDataEx 0 = PROC_EVENT_FORK ∧
      proc_event_dispatch fcAll resolveNil forkDataEx =
        [Line.forkLine 10 20 []] :=
  ⟨by decide,
    (C1_fork_dispatch fcAll resolveNil forkDataEx (by decide)).trans
      (by decide)⟩

/-- C2: for every decoded Exec event and filter configuration, a leader
exec (pid equal to tgid) is emitted exactly when the exec flag is set, as
an Exec record with primary pid, no secondary and enrichment target tgid; a
subordinate exec (pid different from tgid) is emitted exactly when both the
exec and thread flags are set, as an Exec record with primary tgid,
secondary pid and enrichment target tgid. -/
theorem C2_exec_dispatch (fc : FilterConfig) (resolve : Nat → List Nat)
    (data : Nat → Nat) (hwhat : readU32 data 0 = PROC_EVENT_EXEC) :
    proc_event_dispatch fc resolve data =
      if readU32 data 16 = readU32 data 20 then
        if fc.execflag then
          [Line.execLeaderLine (readU32 data 16)
            (resolve (readU32 data 20))]
        else []
      else
        if fc.execflag && fc.threadflag then
          [Line.execThreadLine (readU32 data 20) (readU32 data 16)
            (resolve (readU32 data 20))]
        else [] := by
  cases he : fc.execflag <;> cases ht : fc.threadflag <;>
    by_cases hc : readU32 data 16 = readU32 data 20 <;>
      simp [proc_event_dispatch, hwhat, he, ht, hc,
        PROC_EVENT_FORK, PROC_EVENT_EXEC]

/-- C2 witness: a subordinate-exec payload with process_pid 7 and
process_tgid 9 under all flags set yields exactly the Exec record with
primary 9, secondary 7 and the command line resolved for 9. -/
theorem C2_exec_dispatch_witness :
    readU32 execDataEx 0 = PROC_EVENT_EXEC ∧
      proc_event_dispatch fcAll resolveNil execDataEx =
        [Line.execThreadLine 9 7 []] :=
  ⟨by decide,
    (C2_exec_dispatch fcAll resolveNil execDataEx (by decide)).trans
      (by decide)⟩

/-- C5: a frame of the overrun control type yields exactly one overrun
line, for every filter configuration, resolver and payload; no filter flag
is consulted on this path. -/
theorem C5_overrun_line (fc : FilterConfig) (resolve : Nat → List Nat)
    (msg : CnMsg) :
    dispatch_nl fc resolve NLMSG_OVERRUN msg = [Line.overrun] := by
  simp [dispatch_nl, NLMSG_OVERRUN, NLMSG_ERROR, NLMSG_NOOP]

/-- C8: frames of the error or no-op type produce no output for every
payload; frames of any other, data-carrying type hand their payload to the
process-event stage exactly when the connector channel identifier pair is
the process-event pair, and produce no output otherwise. -/
theorem C8_classify (fc : FilterConfig) (resolve : Nat → List Nat)
    (t : Nat) (msg : CnMsg) :
    ((t = NLMSG_ERROR ∨ t = NLMSG_NOOP) →
      dispatch_nl fc resolve t msg = []) ∧
    (t ≠ NLMSG_ERROR → t ≠ NLMSG_NOOP → t ≠ NLMSG_OVERRUN →
      dispatch_nl fc resolve t msg =
        if msg.idx = CN_IDX_PROC ∧ msg.val = CN_VAL_PROC then
          proc_event_dispatch fc resolve msg.data
        else []) := by
  constructor
  · intro h
    rcases h with h | h <;> simp [dispatch_nl, h]
  · intro h1 h2 h3
    simp [dispatch_nl, h1, h2, h3, dispatch_nl_cn]

/-- C8 witness: a frame of type 3 (neither error, no-op nor overrun)
carrying a process-event channel message is handed to the process-event
stage. -/
theorem C8_classify_witness :
    dispatch_nl fcAll resolveNil 3 cnLen32B =
      (if cnLen32B.idx = CN_IDX_PROC ∧ cnLen32B.val = CN_VAL_PROC then
        proc_event_dispatch fcAll resolveNil cnLen32B.data
      else []) :=
  (C8_classify fcAll resolveNil 3 cnLen32B).2
    (by decide) (by decide) (by decide)

/-- C10: a datagram whose netlink sender address carries a nonzero pid is
skipped entirely by the receive loop; no output line is produced for it. -/
theorem C10_nonkernel_skip (fc : FilterConfig) (resolve : Nat → List Nat)
    (senderPid : Nat) (buf : Nat → Nat) (bcount : Int)
    (h : senderPid ≠ 0) :
    recv_step fc resolve senderPid buf bcount = [] := by
  simp [recv_step, h]

/-- C10 witness: a datagram from sender pid 1 holding a valid overrun frame
produces no output. -/
theorem C10_nonkernel_skip_witness :
    recv_step fcAll resolveNil 1 buf20ex 20 = [] :=
  C10_nonkernel_skip fcAll resolveNil 1 buf20ex 20 (by decide)

/-- C3 counterexample: decoding does read past the declared payload length.
Two connector messages on the process-event channel both declare payload
length zero — so they agree on every byte inside the declared length,
vacuously — yet they decode differently, because dispatch_nl_cn reads the
discriminant and fork fields at fixed offsets without consulting the
declared length. -/
theorem C3_reads_past_len_cex :
    cnLenZeroA.len = cnLenZeroB.len ∧
      (∀ i, i < cnLenZeroA.len → cnLenZeroA.data i = cnLenZeroB.data i) ∧
      dispatch_nl_cn fcAll resolveNil cnLenZeroA ≠
        dispatch_nl_cn fcAll resolveNil cnLenZeroB := by
  refine ⟨rfl, ?_, by decide⟩
  intro i hi
  simp [cnLenZeroA] at hi

/-- C3 amended: decoding never consults the declared payload length; it
reads the discriminant and the variant fields at fixed offsets within the
first 32 bytes of the payload, so the decode outcome depends only on the
channel identifier pair and the payload bytes at offsets 0 through 31,
whatever length the connector header declares. -/
theorem C3_fixed_offsets (fc : FilterConfig) (resolve : Nat → List Nat)
    (m₁ m₂ : CnMsg) (hidx : m₁.idx = m₂.idx) (hval : m₁.val = m₂.val)
    (hdata : ∀ i, i < 32 → m₁.data i = m₂.data i) :
    dispatch_nl_cn fc resolve m₁ = dispatch_nl_cn fc resolve m₂ := by
  have h0 := readU32_congr hdata 0 (by omega)
  have h16 := readU32_congr hdata 16 (by omega)
  have h20 := readU32_congr hdata 20 (by omega)
  have h24 := readU32_congr hdata 24 (by omega)
  have h28 := readU32_congr hdata 28 (by omega)
  unfold dispatch_nl_cn proc_event_dispatch
  rw [hidx, hval, h0, h16, h20, h24, h28]

/-- C3 amended witness: two messages sharing the channel identifiers and
payload bytes but declaring different payload lengths decode identically. -/
theorem C3_fixed_offsets_witness :
    dispatch_nl_cn fcAll resolveNil cnLenZeroB =
      dispatch_nl_cn fcAll resolveNil cnLen32B :=
  C3_fixed_offsets fcAll resolveNil cnLenZeroB cnLen32B rfl rfl
    (fun _ _ => rfl)

/-- C4 counterexample: the byte 255 is not below 32, yet the resolver
replaces it with a space, because the C comparison is made on a signed
char, under which every byte of 128 or more reads back negative. -/
theorem C4_high_byte_cex :
    get_cmdline (CmdlineSrc.content [255]) ≠ [255] ∧
      ¬ (255 : Nat) < 32 ∧
      get_cmdline (CmdlineSrc.content [255]) = [32] :=
  ⟨by decide, by decide, by decide⟩

/-- C4 amended: the resolver maps the sanitizing step over the bytes read
(at most 4096 of them); a byte is replaced by a single space exactly when
its value is below 32 or at least 128 — the comparison is on the signed
char value — and all bytes from 32 to 127 pass through unchanged; in
particular the input bytes 97 98 0 99 100 1 101 102 yield 97 98 32 99 100
32 101 102. -/
theorem C4_sanitize (bs : List Nat) :
    get_cmdline (CmdlineSrc.content bs) = (bs.take 4096).map sanitizeByte ∧
      (∀ b : Nat, b < 256 →
        sanitizeByte b = if b < 32 ∨ 128 ≤ b then 32 else b) ∧
      get_cmdline (CmdlineSrc.content [97, 98, 0, 99, 100, 1, 101, 102]) =
        [97, 98, 32, 99, 100, 32, 101, 102] := by
  refine ⟨?_, ?_, by decide⟩
  · have h := sanLoop_spec (bs.take 4096) []
    simp only [List.nil_append, List.length_nil, Nat.zero_add] at h
    show (sanLoop (bs.take 4096) 0 (bs.take 4096).length).1 = _
    rw [h]
  · intro b hb
    unfold sanitizeByte signedChar
    split_ifs <;> omega

/-- C4 witness: the characterization applied to the concrete input bytes
of the claim and to the byte 200. -/
theorem C4_sanitize_witness :
    get_cmdline (CmdlineSrc.content [97, 98, 0, 99, 100, 1, 101, 102]) =
        ([97, 98, 0, 99, 100, 1, 101, 102].take 4096).map sanitizeByte ∧
      (200 : Nat) < 256 ∧
      sanitizeByte 200 =
        if (200 : Nat) < 32 ∨ 128 ≤ (200 : Nat) then 32 else 200 :=
  ⟨(C4_sanitize [97, 98, 0, 99, 100, 1, 101, 102]).1, by decide,
    (C4_sanitize []).2.1 200 (by decide)⟩

/-- C6: every frame the receive-loop iteration visits passed the NLMSG_OK
checks — at least a header of 16 bytes remained, and the declared frame
length was at least the header size and at most the remaining bytes —
against a remaining count no larger than the received byte count; at a
frame failing the checks the iteration stops with no further frames and no
output, so the rest of the datagram is discarded silently; and at a frame
passing them the iteration visits it and resumes past its aligned declared
length. -/
theorem C6_frame_iteration (buf : Nat → Nat) (off : Nat) (len : Int)
    (fc : FilterConfig) (resolve : Nat → List Nat) :
    (∀ o ∈ framesFrom buf off len, ∃ r : Int, r ≤ len ∧ nlmsgOk buf o r) ∧
    (¬ nlmsgOk buf off len →
      framesFrom buf off len = [] ∧
        processFrames fc resolve buf off len = []) ∧
    (nlmsgOk buf off len →
      framesFrom buf off len =
        off :: framesFrom buf (off + NLMSG_ALIGN (nlmsgLenAt buf off))
          (len - (NLMSG_ALIGN (nlmsgLenAt buf off) : Int))) := by
  refine ⟨?_, ?_, ?_⟩
  · intro o ho
    exact framesFromAux_mem buf (len.toNat + 1) off len o ho
  · intro h
    have h1 : framesFrom buf off len = [] := by
      rw [framesFrom_unfold, if_neg h]
    exact ⟨h1, by simp [processFrames, h1]⟩
  · intro h
    rw [framesFrom_unfold, if_pos h]

/-- C6 witness: in a 20-byte datagram holding one valid frame at offset 0,
that frame is visited and passed the NLMSG_OK checks against some remaining
count within the received 20 bytes. -/
theorem C6_frame_iteration_witness :
    ∃ r : Int, r ≤ 20 ∧ nlmsgOk buf20ex 0 r :=
  (C6_frame_iteration buf20ex 0 20 fcAll resolveNil).1 0 (by decide)

/-- C7 counterexample: when the open call succeeds but the read call fails,
get_cmdline returns the empty string, not the placeholder: bytes is -1, the
sanitizing loop never runs, and the terminating zero is stored at index 0
of the buffer. -/
theorem C7_read_failure_cex :
    resolveOf (fun _ => CmdlineSrc.readFail) 7 = [] ∧
      resolveOf (fun _ => CmdlineSrc.readFail) 7 ≠ NA :=
  ⟨rfl, by decide⟩

/-- C7 amended: for every process identifier, if the command-line interface
cannot be opened (the subject no longer exists or permission is denied) the
resolver returns the fixed placeholder; if it opens but the read fails the
resolver returns the empty string; in both cases it returns normally and
never escalates the failure. -/
theorem C7_failure_modes (env : Nat → CmdlineSrc) (pid : Nat) :
    (env pid = CmdlineSrc.openFail → resolveOf env pid = NA) ∧
    (env pid = CmdlineSrc.readFail → resolveOf env pid = []) := by
  constructor <;> intro h <;> simp [resolveOf, h, get_cmdline]

/-- C7 amended witness: the resolver applied to an identifier whose
interface cannot be opened yields the placeholder. -/
theorem C7_failure_modes_witness :
    resolveOf (fun _ => CmdlineSrc.openFail) 3 = NA :=
  (C7_failure_modes (fun _ => CmdlineSrc.openFail) 3).1 rfl

/-- C9: evaluating get_cmdline at a read of 4096 bytes, the terminating
zero is stored at index 4096 of cmdlinebuf, which is not within the bounds
of the 4096-byte array — the write is one byte past its end. -/
theorem C9_terminator_oob :
    terminatorIndex (List.replicate 4096 65) = cmdlinebufSize ∧
      ¬ terminatorIndex (List.replicate 4096 65) < cmdlinebufSize := by
  have h : terminatorIndex (List.replicate 4096 65) = 4096 := by
    unfold terminatorIndex
    rw [sanLoop_snd, List.length_take, List.length_replicate]
    omega
  exact ⟨by rw [h]; rfl, by rw [h]; unfold cmdlinebufSize; omega⟩

end Startmon
